import Mathlib

/-!
Verification of the VM provisioning and lifecycle engine of the
cloud-backend repository against its specification.

Strings coming from the Go side are modelled as lists of characters
(`GoStr`), so that the byte-level operations of the source
(`strings.Contains`, `strings.ReplaceAll`, `filepath.Clean`, ...) can be
embedded as executable functions.  Cluster and database interaction is
modelled by explicit environments of functions, and every externally
visible action is recorded in an event trace.
-/

set_option maxHeartbeats 1000000

/-- Strings of the Go program, modelled as lists of characters. -/
abbrev GoStr := List Char

/-- Converts a Lean string literal to the model representation. -/
def gs (s : String) : GoStr := s.data

/-- Result helper: true when an `Except` value is a success. -/
def exOk {α : Type} : Except GoStr α → Bool
  | .ok _ => true
  | .error _ => false

/-- Membership of a character in the lowercase-alphanumeric class used by
the DNS-1123 regular expression of `checkInjection`. -/
def isLowerAlnum (c : Char) : Bool :=
  ('a' ≤ c && c ≤ 'z') || ('0' ≤ c && c ≤ '9')

/-- Characters allowed inside a DNS-1123 label: lowercase alphanumerics
and the hyphen. -/
def isLabelChar (c : Char) : Bool :=
  isLowerAlnum c || c == '-'

/-- Whether the last character of a nonempty list is lowercase
alphanumeric; false on the empty list. -/
def lastIsLowerAlnum : GoStr → Bool
  | [] => false
  | [c] => isLowerAlnum c
  | _ :: c :: rest => lastIsLowerAlnum (c :: rest)

/-- The anchored regular expression of the source,
a lowercase alphanumeric, then optionally label characters ending in a
lowercase alphanumeric: first character in [a-z0-9], and the remainder
empty or made of [-a-z0-9] with a [a-z0-9] last character. -/
def dns1123Match : GoStr → Bool
  | [] => false
  | c :: rest =>
    isLowerAlnum c && (rest.isEmpty || (rest.all isLabelChar && lastIsLowerAlnum rest))

/-- The fixed punctuation set accepted inside passwords by the source
regular expression. -/
def pwPunct : List Char :=
  ['!', '@', '#', '$', '%', '^', '&', '*', '(', ')', '_', '+', '-', '=',
   '[', ']', Char.ofNat 123, Char.ofNat 125, '|', ';', ':', ',', '.',
   '<', '>', '/', '?']

/-- Characters accepted in passwords: ASCII letters, digits and the fixed
punctuation set. -/
def isPwChar (c : Char) : Bool :=
  ('a' ≤ c && c ≤ 'z') || ('A' ≤ c && c ≤ 'Z') || ('0' ≤ c && c ≤ '9') ||
    pwPunct.contains c

/-- The anchored password regular expression of the source: one or more
allowed characters. -/
def passwordMatch (s : GoStr) : Bool :=
  !s.isEmpty && s.all isPwChar

/-- Characters accepted in the DNS host parameter: ASCII letters, digits,
dot and hyphen. -/
def isDomainChar (c : Char) : Bool :=
  ('a' ≤ c && c ≤ 'z') || ('A' ≤ c && c ≤ 'Z') || ('0' ≤ c && c ≤ '9') ||
    c == '.' || c == '-'

/-- The anchored DNS host regular expression of the source: one or more
allowed characters. -/
def domainMatch (s : GoStr) : Bool :=
  !s.isEmpty && s.all isDomainChar

/-- Splits a character list at every occurrence of the separator
character, mirroring the splitting behaviour used by path cleaning. -/
def splitChar (c : Char) : GoStr → List GoStr
  | [] => [[]]
  | x :: xs =>
    if x == c then [] :: splitChar c xs
    else
      match splitChar c xs with
      | [] => [[x]]
      | p :: ps => (x :: p) :: ps

/-- Processing of path elements by lexical cleaning: empty and dot
elements are dropped, a parent element pops the previous element when
possible (never above the root of a rooted path, and kept literally at
the head of a relative path). -/
def cleanParts (rooted : Bool) (acc : List GoStr) : List GoStr → List GoStr
  | [] => acc
  | p :: ps =>
    if p == [] || p == ['.'] then cleanParts rooted acc ps
    else if p == ['.', '.'] then
      if rooted then cleanParts rooted acc.dropLast ps
      else
        match acc.getLast? with
        | none => cleanParts rooted (acc ++ [p]) ps
        | some l =>
          if l == ['.', '.'] then cleanParts rooted (acc ++ [p]) ps
          else cleanParts rooted acc.dropLast ps
    else cleanParts rooted (acc ++ [p]) ps

/-- Joins path elements with slashes. -/
def joinParts : List GoStr → GoStr
  | [] => []
  | [p] => p
  | p :: q :: ps => p ++ '/' :: joinParts (q :: ps)

/-- Lexical path normalization as performed by the Go standard library on
slash-separated paths: resolves dot and parent elements, collapses
separators, returns a dot for an empty result. -/
def cleanPath (s : GoStr) : GoStr :=
  if s == [] then ['.']
  else
    let rooted := s.head? == some '/'
    let parts := cleanParts rooted [] (splitChar '/' s)
    if rooted then '/' :: joinParts parts
    else if parts == [] then ['.'] else joinParts parts

/-- Substring containment test, mirroring `strings.Contains` of the
source: the needle occurs as a contiguous run inside the haystack. -/
def containsSub (needle : GoStr) : GoStr → Bool
  | [] => needle.isEmpty
  | x :: xs => needle.isPrefixOf (x :: xs) || containsSub needle xs

/-- Whether a character list starts with the given character. -/
def startsWithChar (c : Char) (s : GoStr) : Bool :=
  s.head? == some c

/-- Error message of the guard for missing parameters. -/
def msgEmptyParams : GoStr := gs "invalid parameters: empty values not allowed"

/-- Error message of the guard for an out-of-range port. -/
def msgPort : GoStr := gs "invalid port: NodePort must be between 30003 and 32767"

/-- Error message of the guard for a malformed namespace. -/
def msgNamespaceFmt : GoStr := gs "invalid namespace format: must be DNS-1123 compliant"

/-- Error message of the guard for a malformed VM name. -/
def msgVmNameFmt : GoStr := gs "invalid vmName format: must be DNS-1123 compliant"

/-- Error message of the guard for a password of invalid length. -/
def msgPwLen : GoStr := gs "invalid password: length must be between 8 and 16 characters"

/-- Error message of the guard for a password with invalid characters. -/
def msgPwFmt : GoStr := gs "invalid password format: contains invalid characters"

/-- Error message of the guard for a malformed DNS host. -/
def msgDnsHost : GoStr := gs "invalid dnsHost format: contains invalid characters"

/-- Error message of the guard for a manifest directory that fails the
path-traversal check. -/
def msgManifestDir : GoStr := gs "invalid manifest directory: contains invalid characters"

/-- The injection guard of the provisioning service: empty-parameter
check, node-port range check, DNS-1123 checks on namespace and VM name,
password length and character-set checks, DNS host character check, and
the path-traversal check on the lexically cleaned manifest directory.
Checks run in source order and the first failure short-circuits. -/
def checkInjection (userNamespace vmName password dnsHost manifestDir : GoStr)
    (vmPort : Int) : Except GoStr Unit :=
  if userNamespace == [] || vmName == [] || password == [] || dnsHost == [] ||
      manifestDir == [] || vmPort == 0 then
    .error msgEmptyParams
  else if !(30003 ≤ vmPort && vmPort < 32767) then
    .error msgPort
  else if !dns1123Match userNamespace then
    .error msgNamespaceFmt
  else if !dns1123Match vmName then
    .error msgVmNameFmt
  else if password.length < 8 || password.length > 16 then
    .error msgPwLen
  else if !passwordMatch password then
    .error msgPwFmt
  else if !domainMatch dnsHost then
    .error msgDnsHost
  else
    let cleanDir := cleanPath manifestDir
    if containsSub (gs "..") cleanDir || startsWithChar '/' cleanDir ||
        startsWithChar '\\' cleanDir then
      .error msgManifestDir
    else
      .ok ()

example : exOk (checkInjection (gs "my-ns") (gs "vm-a") (gs "Passw0rd")
    (gs "vps.example.com") (gs "yaml-data/client-vm") 30003) = true := by decide

example : exOk (checkInjection (gs "My-NS") (gs "vm-a") (gs "Passw0rd")
    (gs "vps.example.com") (gs "yaml-data/client-vm") 30003) = false := by decide

example : cleanPath (gs "./client-init") = gs "client-init" := by decide

example : cleanPath (gs "a/../../b") = gs "../b" := by decide

/-- Fuel-driven worker for `replaceAll`; the fuel dominates the length of
the scanned text, so the zero-fuel branch is never reached when the
worker is started with the text length as fuel. -/
def replaceAllF (pat rep : GoStr) : Nat → GoStr → GoStr
  | 0, s => s
  | _, [] => []
  | fuel + 1, x :: xs =>
    if pat.isEmpty then x :: xs
    else if pat.isPrefixOf (x :: xs) then
      rep ++ replaceAllF pat rep fuel ((x :: xs).drop pat.length)
    else
      x :: replaceAllF pat rep fuel xs

/-- Replaces every non-overlapping occurrence of a nonempty pattern by the
replacement, scanning left to right, mirroring `strings.ReplaceAll` of the
source (the source is never called with an empty pattern; an empty pattern
leaves the text unchanged here). -/
def replaceAll (pat rep s : GoStr) : GoStr :=
  replaceAllF pat rep s.length s

/-- Fuel-driven worker for `splitSub`; the fuel dominates the length of
the scanned text. -/
def splitSubF (sep : GoStr) : Nat → GoStr → List GoStr
  | 0, s => [s]
  | _, [] => [[]]
  | fuel + 1, x :: xs =>
    if sep.isEmpty then [x :: xs]
    else if sep.isPrefixOf (x :: xs) then
      [] :: splitSubF sep fuel ((x :: xs).drop sep.length)
    else
      match splitSubF sep fuel xs with
      | [] => [[x]]
      | p :: ps => (x :: p) :: ps

/-- Splits a character list around every non-overlapping occurrence of a
nonempty separator, scanning left to right, mirroring `strings.Split` of
the source (the source only uses the nonempty document separator; an
empty separator yields the whole text as a single part here). -/
def splitSub (sep s : GoStr) : List GoStr :=
  splitSubF sep s.length s

/-- Whitespace recognizer used by trimming, covering the ASCII whitespace
characters recognised by `strings.TrimSpace`. -/
def isSpaceChar (c : Char) : Bool :=
  c == ' ' || c == '\t' || c == '\n' || c == '\r' ||
    c == Char.ofNat 11 || c == Char.ofNat 12

/-- Trims whitespace from both ends, mirroring `strings.TrimSpace`. -/
def trimSpace (s : GoStr) : GoStr :=
  ((s.dropWhile isSpaceChar).reverse.dropWhile isSpaceChar).reverse

/-- The prefix of a path up to and including its last slash; empty when
the path has no slash. -/
def takeToLastSlash (s : GoStr) : GoStr :=
  (s.reverse.dropWhile (fun c => !(c == '/'))).reverse

/-- All but the last element of a path, cleaned, mirroring
`filepath.Dir`. -/
def dirPath (s : GoStr) : GoStr :=
  cleanPath (takeToLastSlash s)

/-- Joins two path elements with a slash and cleans the result, mirroring
`filepath.Join` on two elements. -/
def joinPath (a b : GoStr) : GoStr :=
  if a == [] && b == [] then []
  else if a == [] then cleanPath b
  else if b == [] then cleanPath a
  else cleanPath (a ++ '/' :: b)

example : dirPath (gs "client-vm") = gs "." := by decide
example : joinPath (gs ".") (gs "client-init") = gs "client-init" := by decide
example : joinPath (gs "yaml-data") (gs "client-init") = gs "yaml-data/client-init" := by decide
example : splitSub (gs "\n---\n") (gs "a\n---\nb") = [gs "a", gs "b"] := by decide
example : replaceAll (gs "ab") (gs "x") (gs "cabab") = gs "cxx" := by decide

/-- Group, version and kind of a cluster resource. -/
structure GVK where
  group : GoStr
  version : GoStr
  kind : GoStr
deriving DecidableEq, Repr

/-- A decoded manifest document, keeping the identifying fields the
source reads and writes on the generic unstructured object. -/
structure K8sObject where
  gvk : GVK
  name : GoStr
  ns : GoStr
  uid : GoStr
deriving DecidableEq, Repr

/-- Ledger entry for a created resource, as recorded by the source for
rollback and for the result summary. -/
structure CreatedResource where
  group : GoStr
  version : GoStr
  kind : GoStr
  name : GoStr
  ns : GoStr
  uid : GoStr
deriving DecidableEq, Repr

instance : Inhabited CreatedResource :=
  ⟨⟨[], [], [], [], [], []⟩⟩

/-- A directory entry as returned by reading a manifest directory. -/
structure FileEntry where
  name : GoStr
  entryIsDir : Bool
deriving DecidableEq, Repr

/-- The discovery mapping resolved for a kind; only its scope matters to
the control flow of the source. -/
structure RestMapping where
  namespaced : Bool
deriving DecidableEq, Repr

/-- Externally visible actions of the provisioning engine, recorded in
order: a directory existence probe, a directory read, a file read, a
create call for an object, and a delete call for a ledger entry. -/
inductive Ev where
  | statE (dir : GoStr)
  | readDirE (dir : GoStr)
  | readFileE (path : GoStr)
  | createE (obj : K8sObject)
  | deleteE (res : CreatedResource)
deriving DecidableEq, Repr

/-- Environment abstracting the filesystem, the YAML decoder, the
discovery mapper and the dynamic cluster client.  Each field gives the
outcome the outside world would return for a call. -/
structure Env where
  dirExists : GoStr → Bool
  readDir : GoStr → Except GoStr (List FileEntry)
  readFile : GoStr → Except GoStr GoStr
  decode : GoStr → Except GoStr K8sObject
  restMap : GVK → Except GoStr RestMapping
  createRes : K8sObject → Except GoStr K8sObject
  deleteRes : CreatedResource → Except GoStr Unit

/-- Builds the ledger descriptor from the decoded kind triple and the
object returned by the create call, as the source does. -/
def mkDescriptor (g : GVK) (o : K8sObject) : CreatedResource :=
  ⟨g.group, g.version, g.kind, o.name, o.ns, o.uid⟩

/-- The document separator the source splits multi-document files on. -/
def docSep : GoStr := gs "\n---\n"

/-- Inner loop of the manifest applier over the documents of one file:
blank documents are skipped, a decode or mapping failure aborts with the
ledger built so far, a create failure whose message mentions an existing
resource is skipped in both modes without extending the ledger, any
other create failure aborts, and a successful create appends its
descriptor to the ledger. -/
def processDocs (env : Env) (defaultNamespace : GoStr) (ignoreExists : Bool) :
    List GoStr → List CreatedResource → List Ev →
    (List CreatedResource × Option GoStr) × List Ev
  | [], acc, tr => ((acc, none), tr)
  | doc :: rest, acc, tr =>
    if trimSpace doc == [] then
      processDocs env defaultNamespace ignoreExists rest acc tr
    else
      match env.decode doc with
      | .error e => ((acc, some (gs "failed to decode yaml: " ++ e)), tr)
      | .ok obj0 =>
        let obj := if obj0.ns == [] then { obj0 with ns := defaultNamespace } else obj0
        match env.restMap obj.gvk with
        | .error e => ((acc, some (gs "failed to find mapping: " ++ e)), tr)
        | .ok _ =>
          match env.createRes obj with
          | .error e =>
            if containsSub (gs "already exists") e then
              if ignoreExists then
                processDocs env defaultNamespace ignoreExists rest acc (tr ++ [Ev.createE obj])
              else
                processDocs env defaultNamespace ignoreExists rest acc (tr ++ [Ev.createE obj])
            else
              ((acc, some (gs "failed to create resource: " ++ e)), tr ++ [Ev.createE obj])
          | .ok createdObj =>
            processDocs env defaultNamespace ignoreExists rest
              (acc ++ [mkDescriptor obj.gvk createdObj]) (tr ++ [Ev.createE obj])

/-- Outer loop of the manifest applier over directory entries:
subdirectories and files without the manifest suffix are skipped, a file
read failure aborts with the ledger built so far, otherwise the
replacement map is substituted into the text, the text is split into
documents and the documents are processed. -/
def processFiles (env : Env) (dir : GoStr) (repl : List (GoStr × GoStr))
    (defaultNamespace : GoStr) (ignoreExists : Bool) :
    List FileEntry → List CreatedResource → List Ev →
    (List CreatedResource × Option GoStr) × List Ev
  | [], acc, tr => ((acc, none), tr)
  | f :: fs, acc, tr =>
    if f.entryIsDir || !((gs ".yaml").isSuffixOf f.name) then
      processFiles env dir repl defaultNamespace ignoreExists fs acc tr
    else
      let path := joinPath dir f.name
      match env.readFile path with
      | .error e =>
        ((acc, some (gs "failed to read file: " ++ e)), tr ++ [Ev.readFileE path])
      | .ok content =>
        let text := repl.foldl (fun t kv => replaceAll kv.1 kv.2 t) content
        let docs := splitSub docSep text
        match processDocs env defaultNamespace ignoreExists docs acc
            (tr ++ [Ev.readFileE path]) with
        | ((acc2, none), tr2) =>
          processFiles env dir repl defaultNamespace ignoreExists fs acc2 tr2
        | ((acc2, some e), tr2) => ((acc2, some e), tr2)

/-- The manifest applier: reads the directory, then processes each
manifest file.  Returns the ledger of created resources, an optional
error, and the event trace, as `applyManifests` of the source does (the
substitution map of the source is iterated in Go map order; it is
modelled as an association list folded in list order). -/
def applyManifests (env : Env) (dir : GoStr) (repl : List (GoStr × GoStr))
    (defaultNamespace : GoStr) (ignoreExists : Bool) :
    (List CreatedResource × Option GoStr) × List Ev :=
  match env.readDir dir with
  | .error e => (([], some (gs "failed to read directory: " ++ e)), [Ev.readDirE dir])
  | .ok files =>
    processFiles env dir repl defaultNamespace ignoreExists files [] [Ev.readDirE dir]

/-- The rollback sweep of the orchestrator: the tracked ledger is walked
in reverse creation order and a background delete is issued for every
entry; the outcome of each delete is only logged, so the sweep never
stops early and never changes the returned error. -/
def rollbackTrace (ledger : List CreatedResource) : List Ev :=
  ledger.reverse.map Ev.deleteE

/-- Result summary of provisioning, echoing the inputs plus the ledger of
the VM phase. -/
structure VMInfo where
  ns : GoStr
  name : GoStr
  port : Int
  password : GoStr
  dnsHost : GoStr
  createdResources : List CreatedResource
deriving DecidableEq, Repr

/-- Placeholder token for the namespace. -/
def nsToken : GoStr := gs "\x7b\x7bNAMESPACE\x7d\x7d"

/-- Placeholder token for the node port. -/
def portToken : GoStr := gs "\x7b\x7bNODEPORT\x7d\x7d"

/-- Placeholder token for the VM name. -/
def nameToken : GoStr := gs "\x7b\x7bVM_NAME\x7d\x7d"

/-- Placeholder token for the DNS host. -/
def dnsToken : GoStr := gs "\x7b\x7bDNS_HOST\x7d\x7d"

/-- Placeholder token for the password. -/
def pwToken : GoStr := gs "\x7b\x7bPASSWORD\x7d\x7d"

/-- The provisioning orchestrator: runs the injection guard, derives the
bootstrap directory from the sibling of the manifest directory with the
documented fallback, applies the bootstrap manifests with the
ignore-existing policy, applies the VM manifests without it, and on a
phase failure returns the wrapped phase error after sweeping the
combined ledger built from completed phases in reverse creation order.
Only the partial ledger of the failing phase call is dropped before the
sweep, exactly as the source drops it by returning before appending. -/
def CreateUserVM (env : Env) (userNamespace vmName password dnsHost manifestDir : GoStr)
    (vmPort : Int) : Except GoStr VMInfo × List Ev :=
  match checkInjection userNamespace vmName password dnsHost manifestDir vmPort with
  | .error e => (.error e, [])
  | .ok _ =>
    let initDir0 := joinPath (dirPath manifestDir) (gs "client-init")
    let initDir := if env.dirExists initDir0 then initDir0 else gs "yaml-data/client-init"
    let initRepl := [(nsToken, userNamespace)]
    match applyManifests env initDir initRepl userNamespace true with
    | ((_, some e), tr1) =>
      (.error (gs "failed to apply client-init manifests: " ++ e),
       Ev.statE initDir0 :: (tr1 ++ rollbackTrace []))
    | ((initCreated, none), tr1) =>
      let vmRepl := [(nsToken, userNamespace), (portToken, gs (toString vmPort)),
                     (nameToken, vmName), (dnsToken, dnsHost), (pwToken, password)]
      match applyManifests env manifestDir vmRepl userNamespace false with
      | ((_, some e), tr2) =>
        (.error (gs "failed to apply client-vm manifests: " ++ e),
         Ev.statE initDir0 :: (tr1 ++ tr2 ++ rollbackTrace initCreated))
      | ((vmCreated, none), tr2) =>
        (.ok ⟨userNamespace, vmName, vmPort, password, dnsHost, vmCreated⟩,
         Ev.statE initDir0 :: (tr1 ++ tr2))

/-- The persisted VM status enumeration of the data model. -/
inductive EnumVmStatus where
  | provisioning
  | failed
  | running
  | stopping
  | stopped
  | deleted
deriving DecidableEq, Repr

/-- A persisted VM record, with the fields the verified operations read
and write: owner, unique name, namespace, node port, access secret,
status and the soft-delete flag. -/
structure VirtualMachine where
  userId : Nat
  name : GoStr
  ns : GoStr
  nodePort : Int
  password : GoStr
  status : EnumVmStatus
  isDeleted : Bool
deriving DecidableEq, Repr

/-- The node ports currently held by active records: the persisted store
filtered to records that are not soft-deleted, projected to the port
column, as the allocator query of the source reads them. -/
def activePorts (db : List VirtualMachine) : List Int :=
  (db.filter (fun v => !v.isDeleted)).map (fun v => v.nodePort)

/-- The ascending scan of the allocator: starting port and a count of
remaining candidates, returning the first port not contained in the used
list. -/
def findFreePort (used : List Int) : Int → Nat → Option Int
  | _, 0 => none
  | start, n + 1 =>
    if used.contains start then findFreePort used (start + 1) n
    else some start

/-- Error message of the allocator when the whole reserved band is
occupied. -/
def msgNoPorts : GoStr := gs "no available ports in range 30003-30300"

/-- The port allocator of the VM service: reads the ports of active
records and scans the closed band from 30003 to 30300 (298 candidates)
for the lowest unused value. -/
def GetAvailablePort (db : List VirtualMachine) : Except GoStr Int :=
  match findFreePort (activePorts db) 30003 298 with
  | some p => .ok p
  | none => .error msgNoPorts

/-- Listing the VMs of one user: active records of the owner; unless the
caller asks for passwords, the password field of every returned record
is blanked. -/
def FetchUserVMs (db : List VirtualMachine) (userId : Nat)
    (containPassword : Bool) : List VirtualMachine :=
  let vms := db.filter (fun v => v.userId == userId && !v.isDeleted)
  if !containPassword then vms.map (fun v => { v with password := [] }) else vms

/-- Fetching one VM by name: the first active record of that name, or
none when no such record exists; unless the caller asks for the
password, the password field of the returned record is blanked. -/
def FetchVmName (db : List VirtualMachine) (vmName : GoStr)
    (containPassword : Bool) : Option VirtualMachine :=
  match (db.filter (fun v => v.name == vmName && !v.isDeleted)).head? with
  | none => none
  | some vm => some (if !containPassword then { vm with password := [] } else vm)

/-- One poll of the cluster object during a status wait: the get call can
fail, return an object without a reported status field, or report a
status string. -/
inductive PollResult where
  | pollErr (e : GoStr)
  | noStatus
  | observed (s : GoStr)
deriving DecidableEq, Repr

/-- ASCII case folding of a character, as used by the case-insensitive
status comparison. -/
def foldChar (c : Char) : Char :=
  if 'A' ≤ c && c ≤ 'Z' then Char.ofNat (c.toNat + 32) else c

/-- Case-insensitive string equality, mirroring `strings.EqualFold` on
ASCII data. -/
def eqFold (a b : GoStr) : Bool :=
  a.map foldChar == b.map foldChar

/-- The poll interval of the status wait, in seconds. -/
def pollIntervalSeconds : Nat := 5

/-- The timeout of the status wait, in seconds. -/
def timeoutSeconds : Nat := 60

/-- The number of ticks the status wait can observe before the timeout
fires: one tick every poll interval within the timeout budget. -/
def maxPolls : Nat := timeoutSeconds / pollIntervalSeconds

/-- The polling loop of the status wait over a finite list of
observations: an exhausted list is the timeout, a failed get aborts with
an error, a missing status field is skipped as not-yet, and a reported
status ends the wait when it case-insensitively equals the desired
status. -/
def waitLoop (desired : GoStr) : List PollResult → Except GoStr Unit
  | [] => .error (gs "timeout waiting for VM status to become " ++ desired)
  | r :: rest =>
    match r with
    | .pollErr e => .error (gs "failed to get VM status: " ++ e)
    | .noStatus => waitLoop desired rest
    | .observed s => if eqFold s desired then .ok () else waitLoop desired rest

/-- Environment of the stop operation: the persisted status update, the
patch of the desired-running flag, and the sequence of poll outcomes
indexed by tick. -/
structure StopEnv where
  updateStatus : GoStr → EnumVmStatus → Except GoStr Unit
  patchRunning : GoStr → GoStr → Bool → Except GoStr Unit
  poll : Nat → PollResult

/-- The status wait of the source, driven by the environment's poll
outcomes for as many ticks as fit in the timeout budget. -/
def waitForVMStatus (env : StopEnv) (desired : GoStr) : Except GoStr Unit :=
  waitLoop desired ((List.range maxPolls).map env.poll)

/-- The stop operation: persist the stopping status, patch the
desired-running flag to false, wait for the stopped status, then persist
the stopped status.  The second component lists the statuses whose
persistence was attempted, in order. -/
def StopVM (env : StopEnv) (vm : VirtualMachine) :
    Except GoStr Unit × List EnumVmStatus :=
  match env.updateStatus vm.name .stopping with
  | .error e =>
    (.error (gs "failed to update VM status to Stopping: " ++ e), [.stopping])
  | .ok _ =>
    match env.patchRunning vm.ns vm.name false with
    | .error e =>
      (.error (gs "failed to patch VM running state: " ++ e), [.stopping])
    | .ok _ =>
      match waitForVMStatus env (gs "Stopped") with
      | .error e =>
        (.error (gs "failed to wait for VM to stop: " ++ e), [.stopping])
      | .ok _ =>
        match env.updateStatus vm.name .stopped with
        | .error e =>
          (.error (gs "failed to update VM status to Stopped: " ++ e),
           [.stopping, .stopped])
        | .ok _ => (.ok (), [.stopping, .stopped])

/-- Environment of the delete operation: the soft-delete update of the
persisted record and the background delete of one cluster resource. -/
structure DeleteEnv where
  softDelete : GoStr → Except GoStr Unit
  deleteRes : CreatedResource → Except GoStr Unit

/-- The six cluster objects the delete operation removes, in the fixed
source order: access service, ingress, VM object, access-credential
secret, backing data volume, web-facing service. -/
def deleteTargets (vm : VirtualMachine) : List CreatedResource :=
  [⟨[], gs "v1", gs "Service", gs "vps-access-" ++ vm.name, vm.ns, []⟩,
   ⟨gs "networking.k8s.io", gs "v1", gs "Ingress", gs "vm-ingress-" ++ vm.name, vm.ns, []⟩,
   ⟨gs "kubevirt.io", gs "v1", gs "VirtualMachine", vm.name, vm.ns, []⟩,
   ⟨[], gs "v1", gs "Secret", vm.name ++ gs "-cloud-init-userdata", vm.ns, []⟩,
   ⟨gs "cdi.kubevirt.io", gs "v1beta1", gs "DataVolume", vm.name ++ gs "-disk", vm.ns, []⟩,
   ⟨[], gs "v1", gs "Service", gs "vps-web-" ++ vm.name, vm.ns, []⟩]

/-- Sequential deletion of a list of cluster objects: the first failure
aborts the remaining deletions and is returned; the second component
lists the deletions actually attempted, in order. -/
def deleteSeq (env : DeleteEnv) :
    List CreatedResource → Except GoStr Unit × List CreatedResource
  | [] => (.ok (), [])
  | r :: rs =>
    match env.deleteRes r with
    | .error e => (.error e, [r])
    | .ok _ =>
      match deleteSeq env rs with
      | (res, att) => (res, r :: att)

/-- The delete operation: soft-delete the persisted record first, then
delete the six associated cluster objects in the fixed order, aborting
on the first failure.  The second component tells whether the soft
delete succeeded, the third lists the cluster deletions attempted. -/
def DeleteVM (env : DeleteEnv) (vm : VirtualMachine) :
    Except GoStr Unit × Bool × List CreatedResource :=
  match env.softDelete vm.name with
  | .error e => (.error e, false, [])
  | .ok _ =>
    match deleteSeq env (deleteTargets vm) with
    | (res, att) => (res, true, att)

theorem findFreePort_some_spec (used : List Int) :
    ∀ (n : Nat) (start p : Int), findFreePort used start n = some p →
      start ≤ p ∧ p < start + (n : Int) ∧ used.contains p = false ∧
        ∀ q : Int, start ≤ q → q < p → used.contains q = true := by
  intro n
  induction n with
  | zero =>
    intro start p h
    simp [findFreePort] at h
  | succ m ih =>
    intro start p h
    simp only [findFreePort] at h
    by_cases hc : used.contains start = true
    · rw [if_pos hc] at h
      obtain ⟨h1, h2, h3, h4⟩ := ih (start + 1) p h
      refine ⟨by omega, by push_cast at h2 ⊢; omega, h3, ?_⟩
      intro q hq1 hq2
      rcases eq_or_lt_of_le hq1 with hq | hq
      · rw [← hq]; exact hc
      · exact h4 q (by omega) hq2
    · rw [if_neg hc] at h
      injection h with h
      subst h
      refine ⟨le_refl _, by push_cast; omega, by simpa using hc, ?_⟩
      intro q hq1 hq2
      omega

theorem findFreePort_none_spec (used : List Int) :
    ∀ (n : Nat) (start : Int), findFreePort used start n = none ↔
      ∀ q : Int, start ≤ q → q < start + (n : Int) → used.contains q = true := by
  intro n
  induction n with
  | zero =>
    intro start
    simp only [findFreePort]
    constructor
    · intro _ q hq1 hq2
      push_cast at hq2
      omega
    · intro _
      trivial
  | succ m ih =>
    intro start
    simp only [findFreePort]
    by_cases hc : used.contains start = true
    · rw [if_pos hc, ih (start + 1)]
      constructor
      · intro h q hq1 hq2
        rcases eq_or_lt_of_le hq1 with hq | hq
        · rw [← hq]; exact hc
        · exact h q (by omega) (by push_cast at hq2 ⊢; omega)
      · intro h q hq1 hq2
        exact h q (by omega) (by push_cast at hq2 ⊢; omega)
    · rw [if_neg hc]
      constructor
      · intro h
        exact absurd h (by simp)
      · intro h
        exact absurd (h start (le_refl _) (by push_cast; omega)) hc

/-- Concrete store for the allocator example: active records hold ports
30003, 30004 and 30006, and a soft-deleted record holds 30005, which
must not count as in use. -/
def c3Db : List VirtualMachine :=
  [⟨1, gs "vm-a", gs "ns-a", 30003, gs "Passw0rd", .running, false⟩,
   ⟨1, gs "vm-b", gs "ns-a", 30004, gs "Passw0rd", .running, false⟩,
   ⟨2, gs "vm-c", gs "ns-b", 30005, gs "Passw0rd", .deleted, true⟩,
   ⟨2, gs "vm-d", gs "ns-b", 30006, gs "Passw0rd", .running, false⟩]

/-- Claim C3: for every set of ports held by active records,
GetAvailablePort returns the smallest port of the closed band from 30003
to 30300 that is not in use, errs exactly when the whole band is in use,
and returns 30005 when the active records hold 30003, 30004 and 30006. -/
theorem c3_available_port :
    (∀ (db : List VirtualMachine) (p : Int),
        GetAvailablePort db = .ok p →
          30003 ≤ p ∧ p ≤ 30300 ∧ (activePorts db).contains p = false ∧
            ∀ q : Int, 30003 ≤ q → q < p → (activePorts db).contains q = true) ∧
    (∀ db : List VirtualMachine,
        GetAvailablePort db = .error msgNoPorts ↔
          ∀ q : Int, 30003 ≤ q → q ≤ 30300 → (activePorts db).contains q = true) ∧
    GetAvailablePort c3Db = .ok 30005 := by
  refine ⟨?_, ?_, ?_⟩
  · intro db p h
    unfold GetAvailablePort at h
    cases hf : findFreePort (activePorts db) 30003 298 with
    | none => rw [hf] at h; exact absurd h (by simp)
    | some r =>
      rw [hf] at h
      injection h with h
      subst h
      obtain ⟨h1, h2, h3, h4⟩ := findFreePort_some_spec (activePorts db) 298 30003 r hf
      exact ⟨h1, by push_cast at h2; omega, h3, h4⟩
  · intro db
    unfold GetAvailablePort
    cases hf : findFreePort (activePorts db) 30003 298 with
    | none =>
      simp only [hf]
      constructor
      · intro _ q hq1 hq2
        exact ((findFreePort_none_spec (activePorts db) 298 30003).mp hf) q hq1
          (by push_cast; omega)
      · intro _
        trivial
    | some r =>
      simp only [hf]
      constructor
      · intro h
        exact absurd h (by simp)
      · intro h
        obtain ⟨h1, h2, h3, _⟩ := findFreePort_some_spec (activePorts db) 298 30003 r hf
        rw [h r h1 (by push_cast at h2; omega)] at h3
        exact absurd h3 (by simp)
  · rfl

/-- Claim C3 witness: the general statement applied to the concrete
store, with every hypothesis discharged there. -/
theorem c3_available_port_witness :
    30003 ≤ (30005 : Int) ∧ (30005 : Int) ≤ 30300 ∧
      (activePorts c3Db).contains 30005 = false ∧
      ∀ q : Int, 30003 ≤ q → q < 30005 → (activePorts c3Db).contains q = true :=
  c3_available_port.1 c3Db 30005 rfl

/-- Claim C10: with the password flag off, every record returned by the
user listing and by the fetch-by-name read has a blank password field. -/
theorem c10_password_concealed :
    (∀ (db : List VirtualMachine) (uid : Nat) (v : VirtualMachine),
        v ∈ FetchUserVMs db uid false → v.password = []) ∧
    (∀ (db : List VirtualMachine) (n : GoStr) (v : VirtualMachine),
        FetchVmName db n false = some v → v.password = []) := by
  constructor
  · intro db uid v hv
    simp only [FetchUserVMs, Bool.not_false, if_true] at hv
    obtain ⟨w, _, hw⟩ := List.mem_map.mp hv
    rw [← hw]
  · intro db n v hv
    simp only [FetchVmName, Bool.not_false, if_true] at hv
    cases hh : (db.filter (fun v => v.name == n && !v.isDeleted)).head? with
    | none => rw [hh] at hv; exact absurd hv (by simp)
    | some w =>
      rw [hh] at hv
      injection hv with hv
      rw [← hv]

/-- Concrete store for the concealment example: one active record with a
nonempty stored password. -/
def c10Db : List VirtualMachine :=
  [⟨7, gs "vm-a", gs "ns-a", 30003, gs "topsecret", .running, false⟩]

/-- The record of the concealment example as surfaced to the caller. -/
def c10Masked : VirtualMachine :=
  ⟨7, gs "vm-a", gs "ns-a", 30003, [], .running, false⟩

/-- Claim C10 witness: fetch-by-name on the concrete store returns the
masked record, and the general statement applied there gives the blank
password. -/
theorem c10_password_concealed_witness :
    FetchVmName c10Db (gs "vm-a") false = some c10Masked ∧ c10Masked.password = [] :=
  ⟨rfl, c10_password_concealed.2 c10Db (gs "vm-a") c10Masked rfl⟩

theorem processDocs_ignore_irrelevant (env : Env) (defaultNamespace : GoStr) :
    ∀ (docs : List GoStr) (acc : List CreatedResource) (tr : List Ev),
      processDocs env defaultNamespace true docs acc tr =
        processDocs env defaultNamespace false docs acc tr := by
  intro docs
  induction docs with
  | nil => intro acc tr; rfl
  | cons d rest ih =>
    intro acc tr
    simp only [processDocs]
    split
    · exact ih acc tr
    · split
      · rfl
      · split
        · rfl
        · split
          · split
            · rw [if_pos trivial, if_neg (show ¬(false = true) by decide)]
              exact ih acc _
            · rfl
          · exact ih _ _

theorem processFiles_ignore_irrelevant (env : Env) (dir : GoStr)
    (repl : List (GoStr × GoStr)) (defaultNamespace : GoStr) :
    ∀ (fs : List FileEntry) (acc : List CreatedResource) (tr : List Ev),
      processFiles env dir repl defaultNamespace true fs acc tr =
        processFiles env dir repl defaultNamespace false fs acc tr := by
  intro fs
  induction fs with
  | nil => intro acc tr; rfl
  | cons f rest ih =>
    intro acc tr
    simp only [processFiles]
    split
    · exact ih acc tr
    · split
      · rfl
      · rw [processDocs_ignore_irrelevant env defaultNamespace]
        split
        · exact ih _ _
        · rfl

/-- Claim C6: the manifest applier behaves identically with the
ignore-existing policy on and off; for every environment, directory,
replacement map and default namespace the two modes return the same
ledger, the same error and the same trace. -/
theorem c6_ignore_exists_equiv (env : Env) (dir : GoStr)
    (repl : List (GoStr × GoStr)) (defaultNamespace : GoStr) :
    applyManifests env dir repl defaultNamespace true =
      applyManifests env dir repl defaultNamespace false := by
  unfold applyManifests
  cases hr : env.readDir dir with
  | error e => rfl
  | ok files => exact processFiles_ignore_irrelevant env dir repl defaultNamespace files [] _

theorem createUserVM_guard_error (env : Env)
    (userNamespace vmName password dnsHost manifestDir : GoStr) (vmPort : Int)
    (e : GoStr)
    (h : checkInjection userNamespace vmName password dnsHost manifestDir vmPort = .error e) :
    CreateUserVM env userNamespace vmName password dnsHost manifestDir vmPort =
      (.error e, []) := by
  unfold CreateUserVM
  rw [h]

/-- Valid namespace fixture for the boundary tests of the guard. -/
def c2Ns : GoStr := gs "my-ns"

/-- Valid VM name fixture for the boundary tests of the guard. -/
def c2Vm : GoStr := gs "vm-a"

/-- Valid password fixture for the boundary tests of the guard. -/
def c2Pw : GoStr := gs "Passw0rd"

/-- Valid DNS host fixture for the boundary tests of the guard. -/
def c2Host : GoStr := gs "vps.example.com"

/-- Valid manifest directory fixture for the boundary tests of the
guard. -/
def c2Dir : GoStr := gs "yaml-data/client-vm"

/-- Claim C2: with otherwise valid parameters the guard accepts exactly
the ports p with 30003 <= p < 32767 (so 30002 and 32767 are rejected and
30003 and 32766 accepted, and through the guard CreateUserVM rejects
them too); it rejects passwords of length 7 and 17 and accepts lengths 8
and 16 from the allowed character set; and it rejects the namespaces
My-NS and -abc while accepting my-ns. -/
theorem c2_injection_boundaries :
    (∀ p : Int,
        exOk (checkInjection c2Ns c2Vm c2Pw c2Host c2Dir p) =
          (decide (30003 ≤ p) && decide (p < 32767))) ∧
    (∀ env : Env,
        CreateUserVM env c2Ns c2Vm c2Pw c2Host c2Dir 30002 = (.error msgPort, []) ∧
        CreateUserVM env c2Ns c2Vm c2Pw c2Host c2Dir 32767 = (.error msgPort, [])) ∧
    exOk (checkInjection c2Ns c2Vm (gs "aaaaaaa") c2Host c2Dir 30003) = false ∧
    exOk (checkInjection c2Ns c2Vm (gs "aaaaaaaa") c2Host c2Dir 30003) = true ∧
    exOk (checkInjection c2Ns c2Vm (gs "aaaaaaaaaaaaaaaa") c2Host c2Dir 30003) = true ∧
    exOk (checkInjection c2Ns c2Vm (gs "aaaaaaaaaaaaaaaaa") c2Host c2Dir 30003) = false ∧
    exOk (checkInjection (gs "My-NS") c2Vm c2Pw c2Host c2Dir 30003) = false ∧
    exOk (checkInjection (gs "-abc") c2Vm c2Pw c2Host c2Dir 30003) = false ∧
    exOk (checkInjection (gs "my-ns") c2Vm c2Pw c2Host c2Dir 30003) = true := by
  refine ⟨?_, ?_, by decide, by decide, by decide, by decide, by decide, by decide, by decide⟩
  · intro p
    by_cases hp0 : p = 0
    · subst hp0
      decide
    · have h0 : (p == 0) = false := by simpa using hp0
      have hA : (c2Ns == ([] : GoStr)) = false := by decide
      have hB : (c2Vm == ([] : GoStr)) = false := by decide
      have hC : (c2Pw == ([] : GoStr)) = false := by decide
      have hD : (c2Host == ([] : GoStr)) = false := by decide
      have hE : (c2Dir == ([] : GoStr)) = false := by decide
      have hN1 : dns1123Match c2Ns = true := by decide
      have hN2 : dns1123Match c2Vm = true := by decide
      have hL1 : decide (c2Pw.length < 8) = false := by decide
      have hL2 : decide (c2Pw.length > 16) = false := by decide
      have hPm : passwordMatch c2Pw = true := by decide
      have hDm : domainMatch c2Host = true := by decide
      have hTrav : (containsSub (gs "..") (cleanPath c2Dir) ||
          startsWithChar '/' (cleanPath c2Dir) ||
          startsWithChar '\\' (cleanPath c2Dir)) = false := by decide
      by_cases hlo : 30003 ≤ p
      · have hP1 : decide (30003 ≤ p) = true := by simpa using hlo
        by_cases hhi : p < 32767
        · have hP2 : decide (p < 32767) = true := by simpa using hhi
          simp [checkInjection, exOk, h0, hA, hB, hC, hD, hE, hN1, hN2,
            hL1, hL2, hPm, hDm, hTrav, hP1, hP2]
        · have hP2 : decide (p < 32767) = false := by simpa using hhi
          simp [checkInjection, exOk, h0, hA, hB, hC, hD, hE, hP1, hP2]
      · have hP1 : decide (30003 ≤ p) = false := by simpa using hlo
        simp [checkInjection, exOk, h0, hA, hB, hC, hD, hE, hP1]
  · intro env
    constructor
    · exact createUserVM_guard_error env c2Ns c2Vm c2Pw c2Host c2Dir 30002 msgPort rfl
    · exact createUserVM_guard_error env c2Ns c2Vm c2Pw c2Host c2Dir 32767 msgPort rfl

/-- Claim C9: for every input rejected by the injection guard the
orchestrator returns the validation error with an empty trace: no
directory probe or read, no file read, no create and no delete happens,
and no persisted record is touched. -/
theorem c9_validation_no_side_effects :
    ∀ (env : Env) (userNamespace vmName password dnsHost manifestDir : GoStr)
      (vmPort : Int) (e : GoStr),
      checkInjection userNamespace vmName password dnsHost manifestDir vmPort = .error e →
      CreateUserVM env userNamespace vmName password dnsHost manifestDir vmPort =
        (.error e, []) := by
  intro env userNamespace vmName password dnsHost manifestDir vmPort e h
  exact createUserVM_guard_error env userNamespace vmName password dnsHost manifestDir
    vmPort e h

/-- A do-nothing environment used to instantiate the witness of the
zero-side-effects statement. -/
def c9Env : Env :=
  ⟨fun _ => false, fun _ => .error (gs "closed"), fun _ => .error (gs "closed"),
   fun _ => .error (gs "closed"), fun _ => .error (gs "closed"),
   fun _ => .error (gs "closed"), fun _ => .error (gs "closed")⟩

/-- Claim C9 witness: an empty namespace is rejected and provisioning
returns the validation error with an empty trace. -/
theorem c9_validation_no_side_effects_witness :
    CreateUserVM c9Env [] (gs "vm-a") (gs "Passw0rd") (gs "vps.example.com")
      (gs "yaml-data/client-vm") 30003 = (.error msgEmptyParams, []) :=
  c9_validation_no_side_effects c9Env [] (gs "vm-a") (gs "Passw0rd")
    (gs "vps.example.com") (gs "yaml-data/client-vm") 30003 msgEmptyParams rfl

/-- Whether the lexically cleaned form of a path still contains a
parent-directory element. -/
def hasParentSegment (s : GoStr) : Bool :=
  (splitChar '/' s).contains (gs "..")

/-- Whether a path is absolute. -/
def isAbsPath (s : GoStr) : Bool :=
  startsWithChar '/' s

theorem isPrefixOf_append_self : ∀ (p v : GoStr), p.isPrefixOf (p ++ v) = true := by
  intro p
  induction p with
  | nil =>
    intro v
    cases v with
    | nil => rfl
    | cons b bs => rfl
  | cons a p ih =>
    intro v
    show (a == a && p.isPrefixOf (p ++ v)) = true
    simp [ih]

theorem containsSub_nil_needle : ∀ s : GoStr, containsSub [] s = true := by
  intro s
  cases s with
  | nil => rfl
  | cons x xs => rfl

theorem containsSub_of_decomp :
    ∀ (u : GoStr) (s p v : GoStr), u ++ p ++ v = s → containsSub p s = true := by
  intro u
  induction u with
  | nil =>
    intro s p v h
    simp only [List.nil_append] at h
    cases p with
    | nil =>
      rw [← h]
      simp only [List.nil_append]
      exact containsSub_nil_needle v
    | cons a p =>
      rw [← h]
      show ((a :: p).isPrefixOf (a :: (p ++ v)) || _) = true
      rw [show a :: (p ++ v) = (a :: p) ++ v from rfl]
      rw [isPrefixOf_append_self]
      rfl
  | cons y u ih =>
    intro s p v h
    rw [← h]
    simp only [List.cons_append]
    show (p.isPrefixOf (y :: (u ++ p ++ v)) || containsSub p (u ++ p ++ v)) = true
    rw [ih (u ++ p ++ v) p v rfl]
    simp

theorem splitChar_ne_nil (c : Char) : ∀ s : GoStr, splitChar c s ≠ [] := by
  intro s
  cases s with
  | nil => simp [splitChar]
  | cons x xs =>
    simp only [splitChar]
    by_cases hx : (x == c) = true
    · rw [if_pos hx]
      simp
    · rw [if_neg hx]
      cases hs : splitChar c xs with
      | nil => simp
      | cons p ps => simp

theorem splitChar_head_starts (c : Char) :
    ∀ (s q : GoStr) (qs : List GoStr), splitChar c s = q :: qs → ∃ t, q ++ t = s := by
  intro s
  induction s with
  | nil =>
    intro q qs h
    simp only [splitChar] at h
    injection h with h1 h2
    exact ⟨[], by rw [← h1]; rfl⟩
  | cons x xs ih =>
    intro q qs h
    simp only [splitChar] at h
    by_cases hx : (x == c) = true
    · rw [if_pos hx] at h
      injection h with h1 h2
      exact ⟨x :: xs, by rw [← h1]; rfl⟩
    · rw [if_neg hx] at h
      cases hs : splitChar c xs with
      | nil => exact absurd hs (splitChar_ne_nil c xs)
      | cons p ps =>
        rw [hs] at h
        injection h with h1 h2
        obtain ⟨t, ht⟩ := ih p ps hs
        refine ⟨t, ?_⟩
        rw [← h1]
        simp only [List.cons_append, ht]

theorem splitChar_mem_decomp (c : Char) :
    ∀ (s p : GoStr), p ∈ splitChar c s → ∃ u v, u ++ p ++ v = s := by
  intro s
  induction s with
  | nil =>
    intro p hp
    simp only [splitChar, List.mem_singleton] at hp
    exact ⟨[], [], by rw [hp]; rfl⟩
  | cons x xs ih =>
    intro p hp
    simp only [splitChar] at hp
    by_cases hx : (x == c) = true
    · rw [if_pos hx] at hp
      rcases List.mem_cons.mp hp with h | h
      · exact ⟨[], x :: xs, by rw [h]; rfl⟩
      · obtain ⟨u, v, huv⟩ := ih p h
        exact ⟨x :: u, v, by simp only [List.cons_append, huv]⟩
    · rw [if_neg hx] at hp
      cases hs : splitChar c xs with
      | nil => exact absurd hs (splitChar_ne_nil c xs)
      | cons q qs =>
        rw [hs] at hp
        rcases List.mem_cons.mp hp with h | h
        · obtain ⟨t, ht⟩ := splitChar_head_starts c xs q qs hs
          refine ⟨[], t, ?_⟩
          rw [h]
          simp only [List.nil_append, List.cons_append, ht]
        · obtain ⟨u, v, huv⟩ := ih p (hs ▸ List.mem_cons_of_mem q h)
          exact ⟨x :: u, v, by simp only [List.cons_append, huv]⟩

theorem containsSub_of_hasParentSegment (s : GoStr) (h : hasParentSegment s = true) :
    containsSub (gs "..") s = true := by
  unfold hasParentSegment at h
  have hm : gs ".." ∈ splitChar '/' s := by
    exact List.mem_of_elem_eq_true h
  obtain ⟨u, v, huv⟩ := splitChar_mem_decomp '/' s (gs "..") hm
  exact containsSub_of_decomp u s (gs "..") v huv

/-- Claim C7: when the lexically cleaned manifest directory still
contains a parent-directory element or is absolute, the guard rejects
the call, provisioning returns that validation error with an empty trace
(so no manifest file is read), the error is the specific
manifest-directory message whenever the remaining parameters are
themselves valid, and that message differs from every other guard
message. -/
theorem c7_manifest_dir_guard :
    (∀ (env : Env) (userNamespace vmName password dnsHost manifestDir : GoStr)
        (vmPort : Int),
        hasParentSegment (cleanPath manifestDir) = true ∨
          isAbsPath (cleanPath manifestDir) = true →
        ∃ e, checkInjection userNamespace vmName password dnsHost manifestDir vmPort =
            .error e ∧
          CreateUserVM env userNamespace vmName password dnsHost manifestDir vmPort =
            (.error e, [])) ∧
    (∀ (userNamespace vmName password dnsHost manifestDir : GoStr) (vmPort : Int),
        hasParentSegment (cleanPath manifestDir) = true ∨
          isAbsPath (cleanPath manifestDir) = true →
        checkInjection userNamespace vmName password dnsHost (gs "yaml-data") vmPort =
          .ok () →
        checkInjection userNamespace vmName password dnsHost manifestDir vmPort =
          .error msgManifestDir) ∧
    (msgManifestDir ≠ msgEmptyParams ∧ msgManifestDir ≠ msgPort ∧
      msgManifestDir ≠ msgNamespaceFmt ∧ msgManifestDir ≠ msgVmNameFmt ∧
      msgManifestDir ≠ msgPwLen ∧ msgManifestDir ≠ msgPwFmt ∧
      msgManifestDir ≠ msgDnsHost) := by
  have hcondOf : ∀ m : GoStr,
      hasParentSegment (cleanPath m) = true ∨ isAbsPath (cleanPath m) = true →
      (containsSub (gs "..") (cleanPath m) || startsWithChar '/' (cleanPath m) ||
        startsWithChar '\\' (cleanPath m)) = true := by
    intro m h
    rcases h with h | h
    · rw [containsSub_of_hasParentSegment (cleanPath m) h]
      rfl
    · unfold isAbsPath at h
      rw [h]
      simp
  refine ⟨?_, ?_, by decide, by decide, by decide, by decide, by decide, by decide, by decide⟩
  · intro env userNamespace vmName password dnsHost manifestDir vmPort h
    have hcond := hcondOf manifestDir h
    have hne : exOk (checkInjection userNamespace vmName password dnsHost manifestDir
        vmPort) = false := by
      unfold checkInjection
      split_ifs with h1 h2 h3 h4 h5 h6 h7 <;> try rfl
      show exOk (if (containsSub (gs "..") (cleanPath manifestDir) ||
          startsWithChar '/' (cleanPath manifestDir) ||
          startsWithChar '\\' (cleanPath manifestDir)) = true then
            (Except.error msgManifestDir : Except GoStr Unit)
          else Except.ok ()) = false
      rw [if_pos hcond]
      rfl
    cases hc : checkInjection userNamespace vmName password dnsHost manifestDir vmPort with
    | ok r =>
      rw [hc] at hne
      exact absurd hne (by simp [exOk])
    | error e =>
      exact ⟨e, rfl,
        createUserVM_guard_error env userNamespace vmName password dnsHost manifestDir
          vmPort e hc⟩
  · intro userNamespace vmName password dnsHost manifestDir vmPort h hsub
    have hcond := hcondOf manifestDir h
    have hmne : (manifestDir == ([] : GoStr)) = false := by
      cases hm0 : manifestDir == ([] : GoStr) with
      | false => rfl
      | true =>
        have hnil : manifestDir = [] := by simpa using hm0
        subst hnil
        rcases h with h | h <;> exact absurd h (by decide)
    unfold checkInjection at hsub
    split_ifs at hsub with g1 g2 g3 g4 g5 g6 g7
    · simp only [Bool.or_eq_true, not_or] at g1
      obtain ⟨⟨⟨⟨⟨gu, gv⟩, gp⟩, gd⟩, -⟩, gport⟩ := g1
      unfold checkInjection
      rw [if_neg (by
        simp only [Bool.or_eq_true, not_or]
        refine ⟨⟨⟨⟨⟨gu, gv⟩, gp⟩, gd⟩, ?_⟩, gport⟩
        simp [hmne])]
      rw [if_neg g2, if_neg g3, if_neg g4, if_neg g5, if_neg g6, if_neg g7]
      show (if (containsSub (gs "..") (cleanPath manifestDir) ||
          startsWithChar '/' (cleanPath manifestDir) ||
          startsWithChar '\\' (cleanPath manifestDir)) = true then
            (Except.error msgManifestDir : Except GoStr Unit)
          else Except.ok ()) = Except.error msgManifestDir
      exact if_pos hcond

/-- Environment used to instantiate the manifest-directory witness. -/
def c7Env : Env :=
  ⟨fun _ => true, fun _ => .ok [], fun _ => .error (gs "no file"),
   fun _ => .error (gs "bad"), fun _ => .error (gs "bad"),
   fun _ => .error (gs "bad"), fun _ => .ok ()⟩

/-- Claim C7 witness: with valid companion parameters a traversal
directory is rejected with the manifest-directory message, and
provisioning returns it with an empty trace. -/
theorem c7_manifest_dir_guard_witness :
    checkInjection (gs "my-ns") (gs "vm-a") (gs "Passw0rd") (gs "vps.example.com")
        (gs "../secrets") 30003 = .error msgManifestDir ∧
      CreateUserVM c7Env (gs "my-ns") (gs "vm-a") (gs "Passw0rd") (gs "vps.example.com")
        (gs "../secrets") 30003 = (.error msgManifestDir, []) := by
  have h := c7_manifest_dir_guard.2.1 (gs "my-ns") (gs "vm-a") (gs "Passw0rd")
    (gs "vps.example.com") (gs "../secrets") 30003 (Or.inl (by decide)) rfl
  exact ⟨h, createUserVM_guard_error c7Env (gs "my-ns") (gs "vm-a") (gs "Passw0rd")
    (gs "vps.example.com") (gs "../secrets") 30003 msgManifestDir h⟩

theorem processDocs_all_exist (env : Env) (defaultNamespace : GoStr)
    (hdec : ∀ s : GoStr, ∃ o, env.decode s = .ok o)
    (hmap : ∀ g : GVK, ∃ m, env.restMap g = .ok m)
    (hcr : ∀ o : K8sObject, ∃ e, env.createRes o = .error e ∧
        containsSub (gs "already exists") e = true) :
    ∀ (docs : List GoStr) (acc : List CreatedResource) (tr : List Ev),
      ∃ tr2, processDocs env defaultNamespace true docs acc tr = ((acc, none), tr2) := by
  intro docs
  induction docs with
  | nil => intro acc tr; exact ⟨tr, rfl⟩
  | cons d rest ih =>
    intro acc tr
    simp only [processDocs]
    by_cases ht : (trimSpace d == ([] : GoStr)) = true
    · rw [if_pos ht]
      exact ih acc tr
    · rw [if_neg ht]
      obtain ⟨o, ho⟩ := hdec d
      obtain ⟨m, hm⟩ := hmap (if o.ns == [] then { o with ns := defaultNamespace } else o).gvk
      obtain ⟨e, he, hce⟩ := hcr (if o.ns == [] then { o with ns := defaultNamespace } else o)
      simp only [ho, hm, he, hce]
      exact ih acc _

theorem processFiles_all_exist (env : Env) (dir : GoStr) (repl : List (GoStr × GoStr))
    (defaultNamespace : GoStr)
    (hrf : ∀ p : GoStr, ∃ c, env.readFile p = .ok c)
    (hdec : ∀ s : GoStr, ∃ o, env.decode s = .ok o)
    (hmap : ∀ g : GVK, ∃ m, env.restMap g = .ok m)
    (hcr : ∀ o : K8sObject, ∃ e, env.createRes o = .error e ∧
        containsSub (gs "already exists") e = true) :
    ∀ (fs : List FileEntry) (acc : List CreatedResource) (tr : List Ev),
      ∃ tr2, processFiles env dir repl defaultNamespace true fs acc tr = ((acc, none), tr2) := by
  intro fs
  induction fs with
  | nil => intro acc tr; exact ⟨tr, rfl⟩
  | cons f rest ih =>
    intro acc tr
    simp only [processFiles]
    by_cases hskip : (f.entryIsDir || !((gs ".yaml").isSuffixOf f.name)) = true
    · rw [if_pos hskip]
      exact ih acc tr
    · rw [if_neg hskip]
      obtain ⟨c, hc⟩ := hrf (joinPath dir f.name)
      obtain ⟨tr2, hdocs⟩ := processDocs_all_exist env defaultNamespace hdec hmap hcr
        (splitSub docSep (repl.foldl (fun t kv => replaceAll kv.1 kv.2 t) c)) acc
        (tr ++ [Ev.readFileE (joinPath dir f.name)])
      simp only [hc, hdocs]
      exact ih acc tr2

/-- Claim C8: when every create call reports an existing resource (the
already-bootstrapped cluster) and the bootstrap manifests are readable
and well formed, the bootstrap phase with the ignore-existing policy
returns an empty creation ledger and no error. -/
theorem c8_bootstrap_idempotent :
    ∀ (env : Env) (dir : GoStr) (repl : List (GoStr × GoStr)) (defaultNamespace : GoStr)
      (files : List FileEntry),
      env.readDir dir = .ok files →
      (∀ p : GoStr, ∃ c, env.readFile p = .ok c) →
      (∀ s : GoStr, ∃ o, env.decode s = .ok o) →
      (∀ g : GVK, ∃ m, env.restMap g = .ok m) →
      (∀ o : K8sObject, ∃ e, env.createRes o = .error e ∧
          containsSub (gs "already exists") e = true) →
      ∃ tr, applyManifests env dir repl defaultNamespace true = (([], none), tr) := by
  intro env dir repl defaultNamespace files hrd hrf hdec hmap hcr
  unfold applyManifests
  rw [hrd]
  exact processFiles_all_exist env dir repl defaultNamespace hrf hdec hmap hcr files []
    [Ev.readDirE dir]

/-- Environment of the idempotence witness: one manifest file whose only
document decodes to a resource the cluster already holds. -/
def c8Env : Env :=
  ⟨fun _ => true,
   fun _ => .ok [⟨gs "a.yaml", false⟩],
   fun _ => .ok (gs "doc"),
   fun _ => .ok ⟨⟨[], gs "v1", gs "ConfigMap"⟩, gs "cm", [], []⟩,
   fun _ => .ok ⟨true⟩,
   fun _ => .error (gs "configmaps cm already exists"),
   fun _ => .ok ()⟩

/-- Claim C8 witness: the general statement applied to the concrete
already-bootstrapped environment yields the empty ledger and no error. -/
theorem c8_bootstrap_idempotent_witness :
    (applyManifests c8Env (gs "client-init") [] (gs "ns-a") true).1 = ([], none) := by
  obtain ⟨tr, htr⟩ := c8_bootstrap_idempotent c8Env (gs "client-init") [] (gs "ns-a")
    [⟨gs "a.yaml", false⟩] rfl
    (fun p => ⟨gs "doc", rfl⟩)
    (fun s => ⟨⟨⟨[], gs "v1", gs "ConfigMap"⟩, gs "cm", [], []⟩, rfl⟩)
    (fun g => ⟨⟨true⟩, rfl⟩)
    (fun o => ⟨gs "configmaps cm already exists", rfl, by decide⟩)
  rw [htr]

theorem waitLoop_all_skipped (desired : GoStr) :
    ∀ obs : List PollResult,
      (∀ r ∈ obs, r = PollResult.noStatus ∨
          ∃ s, r = PollResult.observed s ∧ eqFold s desired = false) →
      waitLoop desired obs =
        .error (gs "timeout waiting for VM status to become " ++ desired) := by
  intro obs
  induction obs with
  | nil => intro _; rfl
  | cons r rest ih =>
    intro h
    rcases h r (List.mem_cons_self r rest) with hr | ⟨s, hr, hs⟩
    · subst hr
      show waitLoop desired rest = _
      exact ih (fun x hx => h x (List.mem_cons_of_mem _ hx))
    · subst hr
      show (if eqFold s desired = true then Except.ok () else waitLoop desired rest) = _
      rw [if_neg (by simp [hs])]
      exact ih (fun x hx => h x (List.mem_cons_of_mem _ hx))

theorem waitLoop_first_match (desired : GoStr) :
    ∀ (pre : List PollResult) (s : GoStr) (post : List PollResult),
      eqFold s desired = true →
      (∀ r ∈ pre, r = PollResult.noStatus ∨
          ∃ s2, r = PollResult.observed s2 ∧ eqFold s2 desired = false) →
      waitLoop desired (pre ++ PollResult.observed s :: post) = .ok () := by
  intro pre
  induction pre with
  | nil =>
    intro s post hs _
    show (if eqFold s desired = true then Except.ok () else _) = _
    rw [if_pos hs]
  | cons r rest ih =>
    intro s post hs h
    rcases h r (List.mem_cons_self r rest) with hr | ⟨s2, hr, hs2⟩
    · subst hr
      show waitLoop desired (rest ++ PollResult.observed s :: post) = _
      exact ih s post hs (fun x hx => h x (List.mem_cons_of_mem _ hx))
    · subst hr
      show (if eqFold s2 desired = true then Except.ok ()
          else waitLoop desired (rest ++ PollResult.observed s :: post)) = _
      rw [if_neg (by simp [hs2])]
      exact ih s post hs (fun x hx => h x (List.mem_cons_of_mem _ hx))

/-- Claim C4: the stop operation persists the stopping status first, then
patches the desired-running flag, then polls every 5 seconds within a
60-second budget (12 polls); a missing status field is skipped as
not-yet; the first case-insensitive Stopped observation ends the wait
with success and a persisted stopped status; if every observation within
the budget misses, a wrapped timeout error is returned and the stopping
status stays the last persisted write. -/
theorem c4_stop_vm :
    (maxPolls = 12 ∧ pollIntervalSeconds = 5 ∧ timeoutSeconds = 60 ∧
      pollIntervalSeconds * maxPolls = timeoutSeconds) ∧
    (∀ (desired : GoStr) (rest : List PollResult),
        waitLoop desired (PollResult.noStatus :: rest) = waitLoop desired rest) ∧
    (∀ (env : StopEnv) (vm : VirtualMachine) (pre post : List PollResult) (s : GoStr),
        env.updateStatus vm.name .stopping = .ok () →
        env.patchRunning vm.ns vm.name false = .ok () →
        env.updateStatus vm.name .stopped = .ok () →
        (List.range maxPolls).map env.poll = pre ++ PollResult.observed s :: post →
        eqFold s (gs "Stopped") = true →
        (∀ r ∈ pre, r = PollResult.noStatus ∨
            ∃ s2, r = PollResult.observed s2 ∧ eqFold s2 (gs "Stopped") = false) →
        StopVM env vm = (.ok (), [.stopping, .stopped])) ∧
    (∀ (env : StopEnv) (vm : VirtualMachine),
        env.updateStatus vm.name .stopping = .ok () →
        env.patchRunning vm.ns vm.name false = .ok () →
        (∀ r ∈ (List.range maxPolls).map env.poll, r = PollResult.noStatus ∨
            ∃ s2, r = PollResult.observed s2 ∧ eqFold s2 (gs "Stopped") = false) →
        StopVM env vm = (.error (gs "failed to wait for VM to stop: " ++
            (gs "timeout waiting for VM status to become " ++ gs "Stopped")),
          [.stopping])) := by
  refine ⟨⟨rfl, rfl, rfl, rfl⟩, ?_, ?_, ?_⟩
  · intro desired rest
    rfl
  · intro env vm pre post s hup1 hpatch hup2 hobs hs hpre
    have hwl : waitLoop (gs "Stopped") ((List.range maxPolls).map env.poll) = .ok () := by
      rw [hobs]
      exact waitLoop_first_match (gs "Stopped") pre s post hs hpre
    simp only [StopVM, hup1, hpatch, waitForVMStatus, hwl, hup2]
  · intro env vm hup1 hpatch hall
    have hwl : waitLoop (gs "Stopped") ((List.range maxPolls).map env.poll) =
        .error (gs "timeout waiting for VM status to become " ++ gs "Stopped") :=
      waitLoop_all_skipped (gs "Stopped") _ hall
    simp only [StopVM, hup1, hpatch, waitForVMStatus, hwl]

/-- Record fixture for the stop witness. -/
def c4Vm : VirtualMachine :=
  ⟨7, gs "vm-a", gs "ns-a", 30003, gs "Passw0rd", .running, false⟩

/-- Environment of the stop witness: the first poll sees no status field
yet and the second poll observes the stopped state. -/
def c4Env : StopEnv :=
  ⟨fun _ _ => .ok (), fun _ _ _ => .ok (),
   fun k => if k == 1 then .observed (gs "Stopped") else .noStatus⟩

/-- Claim C4 witness: the stop statement applied to the concrete
environment, stopping after the second poll with both statuses
persisted. -/
theorem c4_stop_vm_witness :
    StopVM c4Env c4Vm = (.ok (), [.stopping, .stopped]) :=
  c4_stop_vm.2.2.1 c4Env c4Vm [PollResult.noStatus]
    (List.replicate 10 PollResult.noStatus) (gs "Stopped") rfl rfl rfl (by decide) (by decide)
    (fun r hr => Or.inl (List.mem_singleton.mp hr))

theorem deleteSeq_all_ok (env : DeleteEnv) :
    ∀ rs : List CreatedResource,
      (∀ r ∈ rs, env.deleteRes r = .ok ()) → deleteSeq env rs = (.ok (), rs) := by
  intro rs
  induction rs with
  | nil => intro _; rfl
  | cons r rest ih =>
    intro h
    simp only [deleteSeq, h r (List.mem_cons_self r rest),
      ih (fun x hx => h x (List.mem_cons_of_mem r hx))]

theorem deleteSeq_fails_at (env : DeleteEnv) :
    ∀ (rs : List CreatedResource) (k : Nat) (e : GoStr), k < rs.length →
      (∀ j, j < k → env.deleteRes (rs.getD j default) = .ok ()) →
      env.deleteRes (rs.getD k default) = .error e →
      deleteSeq env rs = (.error e, rs.take (k + 1)) := by
  intro rs
  induction rs with
  | nil =>
    intro k e hk _ _
    simp at hk
  | cons r rest ih =>
    intro k e hk hok herr
    cases k with
    | zero =>
      simp only [List.getD_cons_zero] at herr
      simp only [deleteSeq, herr, List.take_succ_cons, List.take_zero]
    | succ k2 =>
      have h0 : env.deleteRes r = .ok () := by
        have := hok 0 (Nat.succ_pos k2)
        simpa using this
      have hrec := ih k2 e (by simpa using hk)
        (fun j hj => by
          have := hok (j + 1) (Nat.succ_lt_succ hj)
          simpa using this)
        (by simpa using herr)
      simp only [deleteSeq, h0, hrec, List.take_succ_cons]

/-- Claim C5: the delete operation soft-deletes the persisted record
before any cluster deletion; the six cluster objects are deleted in the
fixed order access service, ingress, VM object, access-credential
secret, backing data volume, web-facing service; the first deletion
failure aborts the rest and is returned while the record stays
soft-deleted; with no failure all six are deleted. -/
theorem c5_delete_vm :
    (∀ vm : VirtualMachine,
        (deleteTargets vm).map (fun r => (r.kind, r.name)) =
          [(gs "Service", gs "vps-access-" ++ vm.name),
           (gs "Ingress", gs "vm-ingress-" ++ vm.name),
           (gs "VirtualMachine", vm.name),
           (gs "Secret", vm.name ++ gs "-cloud-init-userdata"),
           (gs "DataVolume", vm.name ++ gs "-disk"),
           (gs "Service", gs "vps-web-" ++ vm.name)]) ∧
    (∀ (env : DeleteEnv) (vm : VirtualMachine) (e : GoStr),
        env.softDelete vm.name = .error e →
        DeleteVM env vm = (.error e, false, [])) ∧
    (∀ (env : DeleteEnv) (vm : VirtualMachine),
        env.softDelete vm.name = .ok () →
        (∀ r ∈ deleteTargets vm, env.deleteRes r = .ok ()) →
        DeleteVM env vm = (.ok (), true, deleteTargets vm)) ∧
    (∀ (env : DeleteEnv) (vm : VirtualMachine) (k : Nat) (e : GoStr),
        k < 6 →
        env.softDelete vm.name = .ok () →
        (∀ j, j < k → env.deleteRes ((deleteTargets vm).getD j default) = .ok ()) →
        env.deleteRes ((deleteTargets vm).getD k default) = .error e →
        DeleteVM env vm = (.error e, true, (deleteTargets vm).take (k + 1))) := by
  refine ⟨?_, ?_, ?_, ?_⟩
  · intro vm
    rfl
  · intro env vm e h
    simp only [DeleteVM, h]
  · intro env vm hsoft hall
    simp only [DeleteVM, hsoft, deleteSeq_all_ok env (deleteTargets vm) hall]
  · intro env vm k e hk hsoft hok herr
    have hlen : k < (deleteTargets vm).length := by
      simpa [deleteTargets] using hk
    simp only [DeleteVM, hsoft, deleteSeq_fails_at env (deleteTargets vm) k e hlen hok herr]

/-- Record fixture for the delete witness. -/
def c5Vm : VirtualMachine :=
  ⟨7, gs "vm-a", gs "ns-a", 30003, gs "Passw0rd", .running, false⟩

/-- Environment of the delete witness: the soft delete succeeds and the
cluster rejects exactly the deletion of the VM object, the third
target. -/
def c5Env : DeleteEnv :=
  ⟨fun _ => .ok (),
   fun r => if r.kind == gs "VirtualMachine" then .error (gs "conflict") else .ok ()⟩

/-- Claim C5 witness: with the third deletion failing, the delete
statement gives the error, the soft delete stands, and only the first
three deletions were attempted. -/
theorem c5_delete_vm_witness :
    DeleteVM c5Env c5Vm = (.error (gs "conflict"), true, (deleteTargets c5Vm).take 3) :=
  c5_delete_vm.2.2.2 c5Env c5Vm 2 (gs "conflict") (by omega) rfl
    (fun j hj => by interval_cases j <;> rfl) rfl

/-- Bootstrap document object of the rollback example, before namespace
injection. -/
def c1ObjA : K8sObject := ⟨⟨[], gs "v1", gs "ConfigMap"⟩, gs "init-cm", [], []⟩

/-- First VM-phase document object of the rollback example, before
namespace injection. -/
def c1ObjB : K8sObject :=
  ⟨⟨gs "kubevirt.io", gs "v1", gs "VirtualMachine"⟩, gs "vm-a", [], []⟩

/-- Bootstrap object after namespace injection. -/
def c1ObjA2 : K8sObject := ⟨⟨[], gs "v1", gs "ConfigMap"⟩, gs "init-cm", gs "user-ns", []⟩

/-- VM-phase object after namespace injection. -/
def c1ObjB2 : K8sObject :=
  ⟨⟨gs "kubevirt.io", gs "v1", gs "VirtualMachine"⟩, gs "vm-a", gs "user-ns", []⟩

/-- Ledger descriptor of the bootstrap resource. -/
def c1DescA : CreatedResource :=
  ⟨[], gs "v1", gs "ConfigMap", gs "init-cm", gs "user-ns", []⟩

/-- Ledger descriptor of the VM-phase resource created before the
failing document. -/
def c1DescB : CreatedResource :=
  ⟨gs "kubevirt.io", gs "v1", gs "VirtualMachine", gs "vm-a", gs "user-ns", []⟩

/-- Environment of the rollback example: the bootstrap directory holds
one manifest that creates successfully; the VM directory holds one file
with two documents, the first creating successfully and the second
failing to decode. -/
def c1Env : Env :=
  ⟨fun d => d == gs "client-init",
   fun d =>
     if d == gs "client-init" then .ok [⟨gs "init.yaml", false⟩]
     else if d == gs "client-vm" then .ok [⟨gs "vm.yaml", false⟩]
     else .error (gs "no such directory"),
   fun p =>
     if p == gs "client-init/init.yaml" then .ok (gs "initdoc")
     else if p == gs "client-vm/vm.yaml" then .ok (gs "vmdoc1\n---\nbad")
     else .error (gs "no such file"),
   fun s =>
     if s == gs "initdoc" then .ok c1ObjA
     else if s == gs "vmdoc1" then .ok c1ObjB
     else .error (gs "parse error"),
   fun _ => .ok ⟨true⟩,
   fun o => .ok o,
   fun _ => .ok ()⟩

/-- Claim C1: evaluation of the orchestrator at the failing input.  When
the second VM-phase document is invalid, the resource created by the
first VM-phase document was created (its create event is in the trace)
but is never deleted: the rollback sweep only deletes the bootstrap
resource, because the partial ledger returned by the failing phase call
is dropped before the sweep.  The combined ledger therefore misses the
failing phase's resources and the post-condition of zero residual
resources for the VM fails, against the claim. -/
theorem c1_rollback_drops_failing_phase :
    CreateUserVM c1Env (gs "user-ns") (gs "vm-a") (gs "Passw0rd") (gs "vps.example.com")
        (gs "client-vm") 30003 =
      (.error (gs "failed to apply client-vm manifests: failed to decode yaml: parse error"),
       [Ev.statE (gs "client-init"),
        Ev.readDirE (gs "client-init"), Ev.readFileE (gs "client-init/init.yaml"),
        Ev.createE c1ObjA2,
        Ev.readDirE (gs "client-vm"), Ev.readFileE (gs "client-vm/vm.yaml"),
        Ev.createE c1ObjB2,
        Ev.deleteE c1DescA]) ∧
    c1Env.createRes c1ObjB2 = .ok c1ObjB2 ∧
    Ev.createE c1ObjB2 ∈
      (CreateUserVM c1Env (gs "user-ns") (gs "vm-a") (gs "Passw0rd") (gs "vps.example.com")
        (gs "client-vm") 30003).2 ∧
    Ev.deleteE c1DescB ∉
      (CreateUserVM c1Env (gs "user-ns") (gs "vm-a") (gs "Passw0rd") (gs "vps.example.com")
        (gs "client-vm") 30003).2 := by
  refine ⟨rfl, rfl, by decide, by decide⟩
